import Mathlib

/-!
# Patient Store verification

A shallow embedding of the patient-registration database layer
(`src/lib/database.js` and its enhanced variant `src/unnamed/part_000`):
patient identifier generation (`generatePatientId`, `getNextPatientSequence`),
CRUD operations (`addPatient`, `getAllPatients`, `updatePatient`,
`deletePatient`) and ad-hoc query execution (`executeQuery`), together with
theorems about identifier monotonicity, round-trips, idempotent delete,
output shaping and the destructive-statement denylist.

JavaScript strings are modelled as Lean `String`/`List Char`; JavaScript
numbers that can be `NaN` are modelled by `JSNum`; SQL `NULL` / JS
`undefined` by `Option`.  The embedded SQL engine's table is a list of rows;
`ORDER BY patient_id DESC LIMIT 1` over ASCII text in C collation is the
lexicographic maximum of the matching values.
-/

namespace PatientStore

/-! ## JavaScript-style character and string primitives -/

/-- The whitespace characters recognised by JavaScript `trim` / regex `\s`
(restricted to the ASCII range, which is all this application uses). -/
def isWS (c : Char) : Bool :=
  c = ' ' || c = '\t' || c = '\n' || c = '\r' || c = '\x0b' || c = '\x0c'

/-- Numeric value of a list of decimal digit characters, most significant
first (the accumulator loop of `Number.parseInt`). -/
def digitsVal (cs : List Char) : Nat :=
  cs.foldl (fun a c => 10 * a + (c.toNat - 48)) 0

theorem digitsVal_append_singleton (cs : List Char) (c : Char) :
    digitsVal (cs ++ [c]) = 10 * digitsVal cs + (c.toNat - 48) := by
  simp [digitsVal, List.foldl_append]

theorem digitsVal_zeros_append (m : Nat) (cs : List Char) :
    digitsVal (List.replicate m '0' ++ cs) = digitsVal cs := by
  induction m with
  | zero => simp
  | succ k ih =>
      simp only [List.replicate_succ, List.cons_append]
      show List.foldl _ (10 * 0 + ('0'.toNat - 48)) _ = _
      simpa [digitsVal] using ih

/-- The decimal digit character for `n < 10`. -/
def digitChar : Nat → Char
  | 0 => '0' | 1 => '1' | 2 => '2' | 3 => '3' | 4 => '4'
  | 5 => '5' | 6 => '6' | 7 => '7' | 8 => '8' | _ => '9'

theorem digitChar_isDigit (k : Nat) : (digitChar k).isDigit := by
  unfold digitChar
  split <;> decide

theorem digitChar_toNat {k : Nat} (h : k < 10) : (digitChar k).toNat = 48 + k := by
  interval_cases k <;> decide

/-- Fuel-driven digit expansion (structural recursion, so that concrete
identifiers evaluate inside the kernel). -/
def natDecAux : Nat → Nat → List Char
  | 0, _ => []
  | fuel + 1, n =>
      if n < 10 then [digitChar n]
      else natDecAux fuel (n / 10) ++ [digitChar (n % 10)]

/-- Decimal rendering of a natural number, as `Number.prototype.toString`
produces for a nonnegative integer. -/
def natDec (n : Nat) : List Char := natDecAux (n + 1) n

theorem natDecAux_ne_nil : ∀ fuel n, n < fuel → natDecAux fuel n ≠ [] := by
  intro fuel
  induction fuel with
  | zero => intro n hn; omega
  | succ f ih =>
      intro n _
      simp only [natDecAux]
      split
      · simp
      · next h =>
        have := ih (n / 10) (by omega)
        simp

theorem natDec_ne_nil (n : Nat) : natDec n ≠ [] :=
  natDecAux_ne_nil (n + 1) n (by omega)

theorem natDecAux_digits : ∀ fuel n, n < fuel → ∀ c ∈ natDecAux fuel n, c.isDigit := by
  intro fuel
  induction fuel with
  | zero => intro n hn; omega
  | succ f ih =>
      intro n hn c hc
      simp only [natDecAux] at hc
      split at hc
      · simp only [List.mem_singleton] at hc
        subst hc
        exact digitChar_isDigit n
      · next h =>
        rcases List.mem_append.mp hc with hm | hm
        · exact ih (n / 10) (by omega) c hm
        · simp only [List.mem_singleton] at hm
          subst hm
          exact digitChar_isDigit (n % 10)

/-- Every character of `natDec n` is a decimal digit. -/
theorem natDec_digits (n : Nat) : ∀ c ∈ natDec n, c.isDigit :=
  natDecAux_digits (n + 1) n (by omega)

theorem digitsVal_natDecAux : ∀ fuel n, n < fuel → digitsVal (natDecAux fuel n) = n := by
  intro fuel
  induction fuel with
  | zero => intro n hn; omega
  | succ f ih =>
      intro n hn
      simp only [natDecAux]
      split
      · next h =>
        simp [digitsVal, digitChar_toNat h]
      · next h =>
        rw [digitsVal_append_singleton, ih (n / 10) (by omega),
          digitChar_toNat (Nat.mod_lt _ (by omega))]
        omega

theorem digitsVal_natDec (n : Nat) : digitsVal (natDec n) = n :=
  digitsVal_natDecAux (n + 1) n (by omega)

/-- `natStr n` is the decimal string for `n`. -/
def natStr (n : Nat) : String := String.mk (natDec n)

/-- Rendering of a (possibly negative) integer, as JavaScript stringifies it. -/
def intDec (n : Int) : List Char :=
  if n < 0 then '-' :: natDec (-n).toNat else natDec n.toNat

/-- `String.prototype.padStart(4, "0")` on a character list. -/
def padTo4 (cs : List Char) : List Char :=
  List.replicate (4 - cs.length) '0' ++ cs

/-- `split("-")` on a character list: splits at every `'-'`. -/
def splitD : List Char → List (List Char)
  | [] => [[]]
  | c :: cs =>
      if c = '-' then [] :: splitD cs
      else
        match splitD cs with
        | [] => [[c]]
        | h :: t => (c :: h) :: t

theorem splitD_no_dash {cs : List Char} (h : ∀ c ∈ cs, c ≠ '-') :
    splitD cs = [cs] := by
  induction cs with
  | nil => rfl
  | cons c cs ih =>
      have hc : c ≠ '-' := h c (by simp)
      have ih2 := ih (fun x hx => h x (by simp [hx]))
      simp [splitD, hc, ih2]

theorem splitD_append_dash {a r : List Char} (h : ∀ c ∈ a, c ≠ '-') :
    splitD (a ++ '-' :: r) = a :: splitD r := by
  induction a with
  | nil => simp [splitD]
  | cons c cs ih =>
      have hc : c ≠ '-' := h c (by simp)
      have ih2 := ih (fun x hx => h x (by simp [hx]))
      rw [List.cons_append]
      show (if c = '-' then [] :: splitD (cs ++ '-' :: r)
        else match splitD (cs ++ '-' :: r) with
          | [] => [[c]]
          | h :: t => (c :: h) :: t) = (c :: cs) :: splitD r
      rw [if_neg hc, ih2]

/-- Take the leading digit run of `cs` and read it as a number; `none` when
there is no leading digit (`parseInt` would give `NaN`). -/
def parseDigits (cs : List Char) : Option Nat :=
  let ds := cs.takeWhile (fun c => c.isDigit)
  if ds.isEmpty then none else some (digitsVal ds)

/-- `Number.parseInt` (radix 10) on a character list: skip leading whitespace,
read an optional sign and then the leading digit run; `none` is `NaN`. -/
def jsParseIntChars (cs : List Char) : Option Int :=
  match cs.dropWhile isWS with
  | '-' :: t => (parseDigits t).map (fun n => -(n : Int))
  | '+' :: t => (parseDigits t).map (fun n => (n : Int))
  | other => (parseDigits other).map (fun n => (n : Int))

/-- `Number.parseInt` on a string. -/
def jsParseInt (s : String) : Option Int := jsParseIntChars s.toList

theorem isDigit_not_isWS {c : Char} (h : c.isDigit) : isWS c = false := by
  simp only [isWS, Bool.or_eq_false_iff, decide_eq_false_iff_not]
  refine ⟨⟨⟨⟨⟨?_, ?_⟩, ?_⟩, ?_⟩, ?_⟩, ?_⟩ <;>
    intro hc <;> subst hc <;> exact absurd h (by decide)

theorem isDigit_ne_dash {c : Char} (h : c.isDigit) : c ≠ '-' := by
  intro hc; subst hc; exact absurd h (by decide)

theorem isDigit_ne_plus {c : Char} (h : c.isDigit) : c ≠ '+' := by
  intro hc; subst hc; exact absurd h (by decide)

/-- `parseInt` applied to an all-digit, nonempty character list reads its
decimal value. -/
theorem jsParseIntChars_digits {cs : List Char} (hne : cs ≠ [])
    (hd : ∀ c ∈ cs, c.isDigit) :
    jsParseIntChars cs = some (digitsVal cs) := by
  obtain ⟨c, t, rfl⟩ := List.exists_cons_of_ne_nil hne
  have hc : c.isDigit := hd c (by simp)
  have hws : isWS c = false := isDigit_not_isWS hc
  have htake : (c :: t).takeWhile (fun c => c.isDigit) = c :: t :=
    List.takeWhile_eq_self_iff.mpr (by simpa using hd)
  have hpd : parseDigits (c :: t) = some (digitsVal (c :: t)) := by
    simp [parseDigits, htake, List.isEmpty]
  unfold jsParseIntChars
  rw [List.dropWhile_cons_of_neg (by simp [hws])]
  split
  · next heq =>
      injection heq with h1 _
      exact absurd h1 (isDigit_ne_dash hc)
  · next heq =>
      injection heq with h1 _
      exact absurd h1 (isDigit_ne_plus hc)
  · rw [hpd]
    rfl

/-! ## Data model

`DateT` is a calendar date as JavaScript exposes it (`getFullYear`,
`getMonth`, `getDate`); only differences of the month/day fields matter, so
the 0-based JS month needs no special treatment.  `JSNum` is a JavaScript
number that may be `NaN`; `JSAge` is the `patientData.age` field as it can
arrive from a form: absent, a number, or a string. -/

structure DateT where
  year : Nat
  month : Nat
  day : Nat
deriving DecidableEq, Repr

inductive JSNum where
  | nan
  | int (n : Int)
deriving DecidableEq, Repr

/-- `String(n)` for a JS number that is `NaN` or an integer. -/
def JSNum.render : JSNum → List Char
  | .nan => ['N', 'a', 'N']
  | .int n => intDec n

/-- `n + 1` on a JS number: `NaN` propagates. -/
def JSNum.addOne : JSNum → JSNum
  | .nan => .nan
  | .int n => .int (n + 1)

inductive JSAge where
  | undef
  | num (n : Int)
  | str (s : String)
deriving DecidableEq, Repr

/-- JavaScript truthiness test `!age` on the supplied age value:
`undefined`, `0` and `""` are falsy. -/
def JSAge.falsy : JSAge → Bool
  | .undef => true
  | .num n => n == 0
  | .str s => s == ""

/-- The age-derivation block shared by `addPatient` and `updatePatient`:
```
age = today.getFullYear() - birthDate.getFullYear()
const monthDiff = today.getMonth() - birthDate.getMonth()
if (monthDiff < 0 || (monthDiff === 0 && today.getDate() < birthDate.getDate())) age--
``` -/
def deriveAge (today birth : DateT) : Int :=
  let a : Int := (today.year : Int) - birth.year
  let monthDiff : Int := (today.month : Int) - birth.month
  if monthDiff < 0 ∨ (monthDiff = 0 ∧ today.day < birth.day) then a - 1 else a

/-- `let age = patientData.age; if (!age && patientData.dateOfBirth) { age = ...derived... }` -/
def resolveAge (a : JSAge) (dob : Option DateT) (today : DateT) : JSAge :=
  match dob with
  | some d => if a.falsy then .num (deriveAge today d) else a
  | none => a

/-- `Number.parseInt(age) || 0`.  `parseInt` of an integral JS number `n`
parses `String(n)` and gives back `n`; of `undefined` it gives `NaN`; `|| 0`
turns `NaN` (and `0`) into `0`. -/
def jsParseIntOr0 : JSAge → Int
  | .undef => 0
  | .num n => n
  | .str s =>
      match jsParseInt s with
      | none => 0
      | some m => m

/-- The age value the INSERT/UPDATE statements bind for the `age` column. -/
def storedAgeVal (a : JSAge) (dob : Option DateT) (today : DateT) : Int :=
  jsParseIntOr0 (resolveAge a dob today)

/-- `x || null` on an optional string field: the empty string is falsy and
becomes SQL `NULL`. -/
def normOpt : Option String → Option String
  | some "" => none
  | o => o

/-- The caller-supplied `patientData` object. -/
structure PatientInput where
  firstName : String
  lastName : String
  email : String
  phone : Option String
  dateOfBirth : Option DateT
  age : JSAge
  gender : String
  address : Option String
  emergencyContactName : Option String
  emergencyContactPhone : Option String
  medicalHistory : Option String
  allergies : Option String
  currentMedications : Option String
  insuranceProvider : Option String
  insurancePolicyNumber : Option String
deriving DecidableEq, Repr

/-- A row of the `patients` table. -/
structure Row where
  id : Nat
  patient_id : String
  first_name : String
  last_name : String
  email : String
  phone : Option String
  date_of_birth : DateT
  age : Option Int
  gender : String
  address : Option String
  emergency_contact_name : Option String
  emergency_contact_phone : Option String
  medical_history : Option String
  allergies : Option String
  current_medications : Option String
  insurance_provider : Option String
  insurance_policy_number : Option String
  created_at : Nat
  updated_at : Nat
deriving DecidableEq, Repr

/-- The persisted store: the `patients` table plus the `SERIAL` counter and a
logical clock for `CURRENT_TIMESTAMP` (strictly increasing across
statements). -/
structure DB where
  rows : List Row
  nextId : Nat
  clock : Nat
deriving DecidableEq, Repr

/-! ## Identifier generation (§4.4) -/

/-- `generatePatientId`:
`` `PAT-${currentYear}-${sequenceNumber.toString().padStart(4, "0")}` ``. -/
def generatePatientId (year : Nat) (seq : JSNum) : String :=
  "PAT-" ++ natStr year ++ "-" ++ String.mk (padTo4 seq.render)

/-- The literal part of the LIKE pattern `` `PAT-${currentYear}-%` ``. -/
def patPrefix (year : Nat) : String := "PAT-" ++ natStr year ++ "-"

def strHasPrefix (p s : String) : Bool := p.toList.isPrefixOf s.toList

/-- The rows produced by
`SELECT patient_id FROM patients WHERE patient_id LIKE 'PAT-<year>-%'`:
the pattern's only wildcard is the trailing `%`, so it is a prefix match. -/
def matchingIds (db : DB) (year : Nat) : List String :=
  (db.rows.map (fun r => r.patient_id)).filter (fun s => strHasPrefix (patPrefix year) s)

/-- `Number.parseInt(lastPatientId.split("-")[2])` (`NaN` when index 2 is
out of range or the segment has no leading digit). -/
def seqPartOf (s : String) : JSNum :=
  match (splitD s.toList).get? 2 with
  | none => .nan
  | some p =>
      match jsParseIntChars p with
      | none => .nan
      | some n => .int n

/-- Byte-wise lexicographic strict order on character lists: the ordering of
ASCII `patient_id` text under the engine's C collation. -/
def lexLt : List Char → List Char → Bool
  | [], [] => false
  | [], _ :: _ => true
  | _ :: _, [] => false
  | a :: as, b :: bs =>
      if a.toNat < b.toNat then true
      else if b.toNat < a.toNat then false
      else lexLt as bs

/-- One step of taking the greatest string seen so far. -/
def maxO (acc : Option String) (s : String) : Option String :=
  match acc with
  | none => some s
  | some m => if lexLt m.toList s.toList then some s else some m

/-- The lexicographically greatest element of a list of strings (`none` for
the empty list): the semantics of `ORDER BY patient_id DESC LIMIT 1` over
ASCII text. -/
def maxStr (l : List String) : Option String := l.foldl maxO none

/-- `getNextPatientSequence`, success path: take the lexicographically
greatest matching `patient_id`; an empty result gives sequence 1, otherwise
the parsed third dash-separated segment plus one. -/
def nextSeqJS (db : DB) (year : Nat) : JSNum :=
  match maxStr (matchingIds db year) with
  | none => .int 1
  | some m => (seqPartOf m).addOne

/-! ## CRUD operations (§4.3) -/

inductive DbError where
  | duplicateEmail
  | duplicateId
  | notFound
  | notNullViolation
deriving DecidableEq, Repr

/-- The result of a successful `addPatient`:
`{ success: true, patientId, id: insertedId }` plus the post-state. -/
structure AddOk where
  patientId : String
  id : Nat
  db : DB
deriving DecidableEq, Repr

/-- The row the INSERT statement of `addPatient` writes. -/
def mkRow (db : DB) (today : DateT) (pid : String) (dob : DateT) (p : PatientInput) : Row where
  id := db.nextId
  patient_id := pid
  first_name := p.firstName
  last_name := p.lastName
  email := p.email
  phone := normOpt p.phone
  date_of_birth := dob
  age := some (storedAgeVal p.age p.dateOfBirth today)
  gender := p.gender
  address := normOpt p.address
  emergency_contact_name := normOpt p.emergencyContactName
  emergency_contact_phone := normOpt p.emergencyContactPhone
  medical_history := normOpt p.medicalHistory
  allergies := normOpt p.allergies
  current_medications := normOpt p.currentMedications
  insurance_provider := normOpt p.insuranceProvider
  insurance_policy_number := normOpt p.insurancePolicyNumber
  created_at := db.clock
  updated_at := db.clock

/-- The value `getNextPatientSequence` delivers to `addPatient`:
`seqQueryOk = false` models the sequence-lookup query throwing, whose
`catch` swallows the error and returns sequence 1. -/
def seqQueryResult (db : DB) (year : Nat) (seqQueryOk : Bool) : JSNum :=
  if seqQueryOk then nextSeqJS db year else .int 1

/-- `addPatient` (enhanced variant, `src/unnamed/part_000`): generate the
next identifier, derive the age, insert, and classify uniqueness violations.
A missing `dateOfBirth` violates the `NOT NULL` constraint; a clash on the
unique `patient_id` column is the "Patient ID conflict" error.  The
post-insert verification loop re-reads the row just written, which in this
sequential model always succeeds. -/
def addPatient (db : DB) (today : DateT) (seqQueryOk : Bool) (p : PatientInput) :
    Except DbError AddOk :=
  let seq := seqQueryResult db today.year seqQueryOk
  let pid := generatePatientId today.year seq
  match p.dateOfBirth with
  | none => .error .notNullViolation
  | some dob =>
      if db.rows.any (fun r => r.patient_id == pid) then .error .duplicateId
      else
        .ok ⟨pid, db.nextId,
          { rows := db.rows ++ [mkRow db today pid dob p],
            nextId := db.nextId + 1,
            clock := db.clock + 1 }⟩

/-- One entry of the `getAllPatients` result, with the aliased column
names. -/
structure ListedPatient where
  id : Nat
  patientId : String
  firstName : String
  lastName : String
  email : String
  phone : Option String
  dateOfBirth : DateT
  age : Int
  gender : String
  address : Option String
  emergencyContactName : Option String
  emergencyContactPhone : Option String
  medicalHistory : Option String
  allergies : Option String
  currentMedications : Option String
  insuranceProvider : Option String
  insurancePolicyNumber : Option String
  createdAt : Nat
  updatedAt : Nat
deriving DecidableEq, Repr

/-- The SELECT list of `getAllPatients`:
`COALESCE(age, EXTRACT(YEAR FROM AGE(CURRENT_DATE, date_of_birth)))` reads
the stored age, falling back to the calendar-aware year difference. -/
def listedOf (today : DateT) (r : Row) : ListedPatient where
  id := r.id
  patientId := r.patient_id
  firstName := r.first_name
  lastName := r.last_name
  email := r.email
  phone := r.phone
  dateOfBirth := r.date_of_birth
  age :=
    match r.age with
    | some a => a
    | none => deriveAge today r.date_of_birth
  gender := r.gender
  address := r.address
  emergencyContactName := r.emergency_contact_name
  emergencyContactPhone := r.emergency_contact_phone
  medicalHistory := r.medical_history
  allergies := r.allergies
  currentMedications := r.current_medications
  insuranceProvider := r.insurance_provider
  insurancePolicyNumber := r.insurance_policy_number
  createdAt := r.created_at
  updatedAt := r.updated_at

/-- Descending `created_at` order between rows. -/
def createdDesc (a b : Row) : Prop := b.created_at ≤ a.created_at

instance : DecidableRel createdDesc := fun a b => Nat.decLe b.created_at a.created_at

instance : IsTotal Row createdDesc :=
  ⟨fun a b => (Nat.le_total b.created_at a.created_at).elim Or.inl Or.inr⟩

instance : IsTrans Row createdDesc :=
  ⟨fun _ _ _ hab hbc => Nat.le_trans hbc hab⟩

/-- `getAllPatients`: every row, `ORDER BY created_at DESC`. -/
def getAllPatients (db : DB) (today : DateT) : List ListedPatient :=
  (List.insertionSort createdDesc db.rows).map (listedOf today)

/-- `deletePatient` (enhanced variant): a missing row is already-deleted and
reported as success; an existing row is deleted inside BEGIN/COMMIT.  Both
paths return `true`. -/
def deletePatient (db : DB) (id : Nat) : Bool × DB :=
  if db.rows.any (fun r => r.id == id) then
    (true, { db with rows := db.rows.filter (fun r => !(r.id == id)) })
  else (true, db)

/-- The column assignments of the UPDATE statement in `updatePatient`. -/
def updRow (today : DateT) (clock : Nat) (p : PatientInput) (dob : DateT) (r : Row) : Row :=
  { r with
    first_name := p.firstName
    last_name := p.lastName
    email := p.email
    phone := normOpt p.phone
    date_of_birth := dob
    age := some (storedAgeVal p.age p.dateOfBirth today)
    gender := p.gender
    address := normOpt p.address
    emergency_contact_name := normOpt p.emergencyContactName
    emergency_contact_phone := normOpt p.emergencyContactPhone
    medical_history := normOpt p.medicalHistory
    allergies := normOpt p.allergies
    current_medications := normOpt p.currentMedications
    insurance_provider := normOpt p.insuranceProvider
    insurance_policy_number := normOpt p.insurancePolicyNumber
    updated_at := clock }

/-- `updatePatient` (enhanced variant, `src/unnamed/part_000`): first
`SELECT id FROM patients WHERE id = $1`; an empty result throws
"Patient not found" before any UPDATE runs.  Binding a `NULL` date of birth
to the `NOT NULL` column fails on the matched row. -/
def updatePatient (db : DB) (today : DateT) (id : Nat) (p : PatientInput) :
    Except DbError (Bool × DB) :=
  if db.rows.any (fun r => r.id == id) then
    match p.dateOfBirth with
    | none => .error .notNullViolation
    | some dob =>
        .ok (true,
          { db with
            rows := db.rows.map (fun r => if r.id == id then updRow today db.clock p dob r else r),
            clock := db.clock + 1 })
  else .error .notFound

/-- `updatePatient` (plain variant, `src/lib/database.js`): no existence
check — the UPDATE simply matches zero rows and the function returns `true`.
Constraints (`NOT NULL` date, the UNIQUE email of this variant's schema) can
only fire on a matched row. -/
def updatePatientV2 (db : DB) (today : DateT) (id : Nat) (p : PatientInput) :
    Except DbError (Bool × DB) :=
  if db.rows.any (fun r => r.id == id) then
    match p.dateOfBirth with
    | none => .error .notNullViolation
    | some dob =>
        if db.rows.any (fun r => !(r.id == id) && r.email == p.email) then
          .error .duplicateEmail
        else
          .ok (true,
            { db with
              rows := db.rows.map (fun r => if r.id == id then updRow today db.clock p dob r else r),
              clock := db.clock + 1 })
  else .ok (true, db)

/-! ## Ad-hoc query execution (§4.5) -/

def jsTrimChars (cs : List Char) : List Char :=
  ((cs.dropWhile isWS).reverse.dropWhile isWS).reverse

/-- `String.prototype.trim`. -/
def jsTrim (s : String) : String := String.mk (jsTrimChars s.toList)

/-- ASCII lower-casing of one character. -/
def lowerChar : Char → Char
  | 'A' => 'a'
  | 'B' => 'b'
  | 'C' => 'c'
  | 'D' => 'd'
  | 'E' => 'e'
  | 'F' => 'f'
  | 'G' => 'g'
  | 'H' => 'h'
  | 'I' => 'i'
  | 'J' => 'j'
  | 'K' => 'k'
  | 'L' => 'l'
  | 'M' => 'm'
  | 'N' => 'n'
  | 'O' => 'o'
  | 'P' => 'p'
  | 'Q' => 'q'
  | 'R' => 'r'
  | 'S' => 's'
  | 'T' => 't'
  | 'U' => 'u'
  | 'V' => 'v'
  | 'W' => 'w'
  | 'X' => 'x'
  | 'Y' => 'y'
  | 'Z' => 'z'
  | c => c

/-- `String.prototype.toLowerCase` (ASCII). -/
def jsToLower (s : String) : String := String.mk (s.toList.map lowerChar)

/-- `String.prototype.includes` on character lists. -/
def listContains (needle : List Char) : List Char → Bool
  | [] => needle.isEmpty
  | c :: cs => needle.isPrefixOf (c :: cs) || listContains needle cs

def jsIncludes (s sub : String) : Bool := listContains sub.toList s.toList

def jsStartsWith (s p : String) : Bool := p.toList.isPrefixOf s.toList

/-- Does some suffix of the list satisfy `p`?  (An unanchored regex tries
every start position.) -/
def anyPos (p : List Char → Bool) : List Char → Bool
  | [] => p []
  | c :: cs => p (c :: cs) || anyPos p cs

/-- `\s+w` at the start of the list: one or more whitespace characters
followed by the word `w`. -/
def wsThen (w : List Char) : List Char → Bool
  | [] => false
  | c :: cs => isWS c && (w.isPrefixOf cs || wsThen w cs)

/-- `w1\s+w2` anchored at the start of the list. -/
def matchTwoAt (w1 w2 : List Char) (l : List Char) : Bool :=
  w1.isPrefixOf l && wsThen w2 (l.drop w1.length)

/-- Unanchored `/w1\s+w2/`. -/
def matchTwo (w1 w2 : List Char) (l : List Char) : Bool :=
  anyPos (matchTwoAt w1 w2) l

/-- Unanchored `/w/`. -/
def matchOne (w : List Char) (l : List Char) : Bool :=
  anyPos (fun t => w.isPrefixOf t) l

/-- `dangerousPatterns.some((pattern) => pattern.test(cleanQuery))`: the
case-insensitive regexes are matched by lowercasing the haystack (ASCII). -/
def isDangerous (q : String) : Bool :=
  let lc := (jsToLower q).toList
  matchTwo "drop".toList "database".toList lc ||
  matchTwo "drop".toList "schema".toList lc ||
  matchOne "truncate".toList lc ||
  matchOne "grant".toList lc ||
  matchOne "revoke".toList lc ||
  matchTwo "create".toList "user".toList lc ||
  matchTwo "alter".toList "user".toList lc ||
  matchTwo "drop".toList "user".toList lc

/-- A value inside a result row object; `none` is JS `undefined`/SQL
`NULL`. -/
abbrev JSVal := Option String

/-- What the engine's `query` primitive returns: field descriptors and row
objects keyed by column name. -/
structure EngineResult where
  fields : List String
  rows : List (List (String × JSVal))
deriving DecidableEq, Repr

/-- `row[col]`: `undefined` when the key is absent. -/
def getProp (row : List (String × JSVal)) (k : String) : JSVal :=
  match row.find? (fun kv => kv.1 == k) with
  | none => none
  | some kv => kv.2

/-- `{ rows, columns, rowCount }` as `executeQuery` returns it. -/
structure QueryOutput where
  rows : List (List (String × JSVal))
  columns : List String
  rowCount : Nat
deriving DecidableEq, Repr

/-- The rewritten column list: drop the internal `id` column and, when
`patient_id` is present, move it to the first position. -/
def shapedColumns (fields : List String) : List String :=
  let filteredColumns := fields.filter (fun col => !(col == "id"))
  if fields.contains "patient_id" then
    "patient_id" :: filteredColumns.filter (fun col => !(col == "patient_id"))
  else filteredColumns

/-- The output-shaping block of `executeQuery`: for a lowercased trimmed
statement that starts with `select` and contains `from patients`, drop the
internal `id` column and move `patient_id` to the front, rebuilding every
row object to the new column list. -/
def shapeResult (clean : String) (res : EngineResult) : QueryOutput :=
  if jsIncludes (jsToLower clean) "from patients" &&
      jsStartsWith (jsToLower clean) "select" then
    if res.fields.contains "patient_id" || res.fields.contains "id" then
      let columns2 := shapedColumns res.fields
      let rows2 := res.rows.map (fun row => columns2.map (fun col => (col, getProp row col)))
      ⟨rows2, columns2, rows2.length⟩
    else ⟨res.rows, res.fields, res.rows.length⟩
  else ⟨res.rows, res.fields, res.rows.length⟩

inductive QueryFailure where
  | forbidden
  | engineError
deriving DecidableEq, Repr

/-- `executeQuery q engine`, where `engine` is the embedded engine's `query`
primitive (which may itself fail).  The boolean records whether the engine
was invoked: the denylist rejection happens before any engine call. -/
def executeQuery (q : String) (engine : String → Except Unit EngineResult) :
    Except QueryFailure QueryOutput × Bool :=
  let clean := jsTrim q
  if isDangerous clean then (.error .forbidden, false)
  else
    match engine clean with
    | .error _ => (.error .engineError, true)
    | .ok res => (.ok (shapeResult clean res), true)

/-! ## Spec-side restatement of the identifier algorithm (for claim C2) -/

/-- The identifier the source pipeline assigns:
`generatePatientId(await getNextPatientSequence())`. -/
def nextPatientId (db : DB) (year : Nat) : String :=
  generatePatientId year (nextSeqJS db year)

/-- The spec's "parse the trailing numeric segment": the value of the
longest all-digit suffix, when that suffix is nonempty. -/
def trailingNumericSegment (s : String) : Option Nat :=
  let ds := (s.toList.reverse.takeWhile (fun c => c.isDigit)).reverse
  if ds.isEmpty then none else some (digitsVal ds)

/-- Modelled from the spec wording of §4.4, for the refinement claim C2:
"query for the lexicographically greatest `patientId` matching
`PAT-<current-year>-%`; if none exists, sequence = 1; otherwise parse the
trailing numeric segment and increment", returning
`PAT-<current-year>-<sequence zero-padded to at least 4 digits>`.  (The spec
does not say what happens when the greatest value has no numeric suffix;
that case is unreachable for well-formed stores.) -/
def specNextPatientId (db : DB) (year : Nat) : String :=
  let seq : Nat :=
    match maxStr (matchingIds db year) with
    | none => 1
    | some m =>
        match trailingNumericSegment m with
        | none => 1
        | some k => k + 1
  "PAT-" ++ natStr year ++ "-" ++ String.mk (padTo4 (natDec seq))

/-- Well-formedness of the stored identifiers for a given year: every
`patient_id` matching `PAT-<year>-%` was produced by the generator.  Every
id this layer ever writes has that shape. -/
def WFIds (db : DB) (year : Nat) : Prop :=
  ∀ r ∈ db.rows, strHasPrefix (patPrefix year) r.patient_id = true →
    ∃ k : Nat, r.patient_id = generatePatientId year (.int k)

/-! ## Lemmas about generated identifiers -/

theorem render_int_nat (k : Nat) : (JSNum.int (k : Int)).render = natDec k := by
  simp [JSNum.render, intDec, Int.not_lt.mpr (Int.natCast_nonneg k)]

theorem addOne_int_nat (k : Nat) :
    (JSNum.int (k : Int)).addOne = JSNum.int ((k + 1 : Nat) : Int) := by
  simp [JSNum.addOne]

theorem gen_toList (year : Nat) (seq : JSNum) :
    (generatePatientId year seq).toList =
      ('P' :: 'A' :: 'T' :: '-' :: natDec year) ++ '-' :: padTo4 seq.render := by
  show ((("PAT-" ++ natStr year) ++ "-") ++ String.mk (padTo4 seq.render)).data = _
  simp [String.data_append, natStr]

theorem patPrefix_toList (year : Nat) :
    (patPrefix year).toList = ('P' :: 'A' :: 'T' :: '-' :: natDec year) ++ ['-'] := by
  show (("PAT-" ++ natStr year) ++ "-").data = _
  simp [String.data_append, natStr]

theorem strHasPrefix_gen (year : Nat) (seq : JSNum) :
    strHasPrefix (patPrefix year) (generatePatientId year seq) = true := by
  rw [strHasPrefix, patPrefix_toList, gen_toList, List.isPrefixOf_iff_prefix]
  have h2 : ('P' :: 'A' :: 'T' :: '-' :: natDec year) ++ '-' :: padTo4 seq.render =
      (('P' :: 'A' :: 'T' :: '-' :: natDec year) ++ ['-']) ++ padTo4 seq.render := by
    simp
  rw [h2]
  exact List.prefix_append _ _

theorem natDec_no_dash (n : Nat) : ∀ c ∈ natDec n, c ≠ '-' :=
  fun c hc => isDigit_ne_dash (natDec_digits n c hc)

theorem padTo4_natDec_digits (k : Nat) : ∀ c ∈ padTo4 (natDec k), c.isDigit := by
  intro c hc
  rcases List.mem_append.mp hc with h | h
  · rw [List.eq_of_mem_replicate h]; decide
  · exact natDec_digits k c h

theorem padTo4_natDec_ne_nil (k : Nat) : padTo4 (natDec k) ≠ [] := by
  simp [padTo4, natDec_ne_nil k]

theorem digitsVal_padTo4_natDec (k : Nat) : digitsVal (padTo4 (natDec k)) = k := by
  rw [padTo4, digitsVal_zeros_append, digitsVal_natDec]

theorem splitD_gen (year k : Nat) :
    splitD (generatePatientId year (.int (k : Int))).toList =
      [['P', 'A', 'T'], natDec year, padTo4 (natDec k)] := by
  rw [gen_toList, render_int_nat]
  have h1 : ('P' :: 'A' :: 'T' :: '-' :: natDec year) ++ '-' :: padTo4 (natDec k) =
      ['P', 'A', 'T'] ++ '-' :: (natDec year ++ '-' :: padTo4 (natDec k)) := by
    simp
  rw [h1, splitD_append_dash (by decide), splitD_append_dash (natDec_no_dash year),
    splitD_no_dash (fun c hc => isDigit_ne_dash (padTo4_natDec_digits k c hc))]

theorem seqPartOf_gen (year k : Nat) :
    seqPartOf (generatePatientId year (.int (k : Int))) = .int (k : Int) := by
  unfold seqPartOf
  rw [splitD_gen]
  have hget : [['P', 'A', 'T'], natDec year, padTo4 (natDec k)].get? 2 =
      some (padTo4 (natDec k)) := rfl
  rw [hget]
  simp [jsParseIntChars_digits (padTo4_natDec_ne_nil k) (padTo4_natDec_digits k),
    digitsVal_padTo4_natDec]

theorem takeWhile_all_append_stop {p : Char → Bool} {a : List Char} {c : Char}
    {b : List Char} (ha : ∀ x ∈ a, p x) (hc : p c = false) :
    (a ++ c :: b).takeWhile p = a := by
  induction a with
  | nil => simp [List.takeWhile_cons, hc]
  | cons x xs ih =>
      have hx : p x := ha x (by simp)
      have ih2 := ih (fun y hy => ha y (by simp [hy]))
      simp [List.takeWhile_cons, hx, ih2]

theorem trailing_gen (year k : Nat) :
    trailingNumericSegment (generatePatientId year (.int (k : Int))) = some k := by
  unfold trailingNumericSegment
  rw [gen_toList, render_int_nat]
  have h1 : ('P' :: 'A' :: 'T' :: '-' :: natDec year) ++ '-' :: padTo4 (natDec k) =
      (('P' :: 'A' :: 'T' :: '-' :: natDec year) ++ ['-']) ++ padTo4 (natDec k) := by
    simp
  rw [h1, List.reverse_append]
  have h2 : (('P' :: 'A' :: 'T' :: '-' :: natDec year) ++ ['-']).reverse =
      '-' :: ('P' :: 'A' :: 'T' :: '-' :: natDec year).reverse := by
    rw [List.reverse_append]; rfl
  rw [h2, takeWhile_all_append_stop
    (fun x hx => by simpa using padTo4_natDec_digits k x (List.mem_reverse.mp hx))
    (by decide)]
  simp [List.isEmpty_iff, padTo4_natDec_ne_nil k, digitsVal_padTo4_natDec]

/-! ## Lemmas about the matching-id query -/

theorem maxStr_append_singleton (l : List String) (a : String) :
    maxStr (l ++ [a]) = maxO (maxStr l) a := by
  simp [maxStr, List.foldl_append]

theorem maxO_some_cases (m a : String) :
    maxO (some m) a = some a ∨ maxO (some m) a = some m := by
  cases h : lexLt m.toList a.toList
  · right
    show (if lexLt m.toList a.toList then some a else some m) = some m
    rw [h]
    rfl
  · left
    show (if lexLt m.toList a.toList then some a else some m) = some a
    rw [h]
    rfl

theorem foldl_maxO_some (l : List String) (m : String) :
    ∃ x, l.foldl maxO (some m) = some x ∧ (x = m ∨ x ∈ l) := by
  induction l generalizing m with
  | nil => exact ⟨m, rfl, Or.inl rfl⟩
  | cons s rest ih =>
      rw [List.foldl_cons]
      rcases maxO_some_cases m s with hm | hm <;> rw [hm]
      · obtain ⟨x, hx, hmem⟩ := ih s
        refine ⟨x, hx, ?_⟩
        rcases hmem with rfl | hmem
        · exact Or.inr (by simp)
        · exact Or.inr (by simp [hmem])
      · obtain ⟨x, hx, hmem⟩ := ih m
        refine ⟨x, hx, ?_⟩
        rcases hmem with rfl | hmem
        · exact Or.inl rfl
        · exact Or.inr (by simp [hmem])

theorem maxStr_mem {l : List String} {m : String} (h : maxStr l = some m) :
    m ∈ l := by
  cases l with
  | nil => exact absurd h (by simp [maxStr])
  | cons s rest =>
      rw [maxStr, List.foldl_cons] at h
      have hstep : maxO none s = some s := rfl
      rw [hstep] at h
      obtain ⟨x, hx, hmem⟩ := foldl_maxO_some rest s
      rw [hx] at h
      injection h with h
      subst h
      rcases hmem with rfl | hmem
      · simp
      · simp [hmem]

theorem maxStr_eq_none {l : List String} (h : maxStr l = none) : l = [] := by
  cases l with
  | nil => rfl
  | cons s rest =>
      exfalso
      rw [maxStr, List.foldl_cons] at h
      have hstep : maxO none s = some s := rfl
      rw [hstep] at h
      obtain ⟨x, hx, _⟩ := foldl_maxO_some rest s
      rw [hx] at h
      exact Option.some_ne_none x h

theorem matchingIds_rows_concat {db db2 : DB} {row : Row} {year : Nat}
    (hr : db2.rows = db.rows ++ [row])
    (h : strHasPrefix (patPrefix year) row.patient_id = true) :
    matchingIds db2 year = matchingIds db year ++ [row.patient_id] := by
  simp [matchingIds, hr, List.filter_append, h]

theorem matchingIds_wf {db : DB} {year : Nat} (hwf : WFIds db year) :
    ∀ m ∈ matchingIds db year, ∃ k : Nat, m = generatePatientId year (.int k) := by
  intro m hm
  simp only [matchingIds, List.mem_filter, List.mem_map] at hm
  obtain ⟨⟨r, hr, rfl⟩, hpre⟩ := hm
  exact hwf r hr hpre

/-- Under well-formed stored identifiers, the sequence query either finds
nothing (sequence 1) or finds a greatest generated id `PAT-<year>-<k>` and
yields sequence `k + 1`. -/
theorem nextSeqJS_cases (db : DB) (year : Nat) (hwf : WFIds db year) :
    (nextSeqJS db year = .int ((1 : Nat) : Int) ∧ maxStr (matchingIds db year) = none) ∨
    (∃ (m : String) (k : Nat), maxStr (matchingIds db year) = some m ∧
      m = generatePatientId year (.int k) ∧
      nextSeqJS db year = .int ((k + 1 : Nat) : Int)) := by
  unfold nextSeqJS
  rcases hmax : maxStr (matchingIds db year) with _ | m
  · left
    exact ⟨by norm_num, rfl⟩
  · right
    have hm : m ∈ matchingIds db year := maxStr_mem hmax
    obtain ⟨k, hk⟩ := matchingIds_wf hwf m hm
    refine ⟨m, k, rfl, hk, ?_⟩
    rw [hk]
    simp only [seqPartOf_gen, addOne_int_nat]

/-! ## Lemmas for the denylist (claim C6) -/

theorem lowerChar_WS_fixed {c : Char} (h : isWS c = true) : lowerChar c = c := by
  simp only [isWS, Bool.or_eq_true, decide_eq_true_eq] at h
  rcases h with ((((h | h) | h) | h) | h) | h <;> subst h <;> decide

theorem listContains_split {nd l : List Char} (h : listContains nd l = true) :
    ∃ a b, l = a ++ nd ++ b := by
  induction l with
  | nil =>
      refine ⟨[], [], ?_⟩
      unfold listContains at h
      have : nd = [] := by simpa using h
      simp [this]
  | cons c cs ih =>
      unfold listContains at h
      rcases Bool.or_eq_true_iff.mp h with hp | hc
      · obtain ⟨t, ht⟩ := List.isPrefixOf_iff_prefix.mp hp
        exact ⟨[], t, by simp [← ht]⟩
      · obtain ⟨a, b, rfl⟩ := ih hc
        exact ⟨c :: a, b, rfl⟩

theorem dropWhile_append_cons {p : Char → Bool} (a : List Char) (c : Char)
    (t : List Char) (hc : p c = false) :
    (a ++ c :: t).dropWhile p = a.dropWhile p ++ c :: t := by
  induction a with
  | nil => simp [List.dropWhile_cons, hc]
  | cons x xs ih =>
      by_cases hx : p x
      · simp [List.dropWhile_cons, hx, ih]
      · simp [List.dropWhile_cons, hx]

theorem jsTrimChars_infix {l a m b : List Char} {c1 c2 : Char} {t1 t2 : List Char}
    (hl : l = a ++ m ++ b) (hm1 : m = c1 :: t1) (hm2 : m = t2 ++ [c2])
    (h1 : isWS c1 = false) (h2 : isWS c2 = false) :
    ∃ a2 b2, jsTrimChars l = a2 ++ m ++ b2 := by
  refine ⟨a.dropWhile isWS, (b.reverse.dropWhile isWS).reverse, ?_⟩
  subst hl
  unfold jsTrimChars
  have e1 : (a ++ m ++ b).dropWhile isWS = a.dropWhile isWS ++ (m ++ b) := by
    rw [List.append_assoc, hm1]
    have := dropWhile_append_cons a c1 (t1 ++ b) h1
    simpa using this
  rw [e1]
  have e2 : (a.dropWhile isWS ++ (m ++ b)).reverse =
      b.reverse ++ (c2 :: (t2.reverse ++ (a.dropWhile isWS).reverse)) := by
    rw [hm2]
    simp [List.reverse_append]
  rw [e2, dropWhile_append_cons _ c2 _ h2, hm2]
  simp [List.reverse_append]

theorem anyPos_append (p : List Char → Bool) (x s : List Char) (h : p s = true) :
    anyPos p (x ++ s) = true := by
  induction x with
  | nil =>
      cases s with
      | nil => simpa [anyPos] using h
      | cons c cs => simp [anyPos, h]
  | cons c cs ih => simp [anyPos, ih]

theorem matchTwoAt_here (w1 w2 : List Char) (c : Char) (y : List Char)
    (hc : isWS c = true) :
    matchTwoAt w1 w2 (w1 ++ c :: (w2 ++ y)) = true := by
  unfold matchTwoAt
  have hdrop : (w1 ++ c :: (w2 ++ y)).drop w1.length = c :: (w2 ++ y) :=
    List.drop_left w1 (c :: (w2 ++ y))
  rw [hdrop]
  have hpre : w1.isPrefixOf (w1 ++ c :: (w2 ++ y)) = true :=
    List.isPrefixOf_iff_prefix.mpr ⟨c :: (w2 ++ y), rfl⟩
  have hpre2 : w2.isPrefixOf (w2 ++ y) = true :=
    List.isPrefixOf_iff_prefix.mpr ⟨y, rfl⟩
  rw [hpre]
  unfold wsThen
  rw [hc, hpre2]
  simp

theorem matchTwo_of_split (w1 w2 x y : List Char) (c : Char) (hc : isWS c = true) :
    matchTwo w1 w2 (x ++ (w1 ++ c :: w2) ++ y) = true := by
  have hassoc : x ++ (w1 ++ c :: w2) ++ y = x ++ (w1 ++ c :: (w2 ++ y)) := by
    simp
  rw [hassoc]
  exact anyPos_append _ x _ (matchTwoAt_here w1 w2 c y hc)

/-- A statement whose lowercased text contains `drop database` matches the
denylist regex `/drop\s+database/i` after trimming. -/
theorem dropDatabase_implies_dangerous (q : String)
    (h : listContains ("drop database".toList) ((jsToLower q).toList) = true) :
    isDangerous (jsTrim q) = true := by
  obtain ⟨a, b, hab⟩ := listContains_split h
  have hab2 : q.toList.map lowerChar = a ++ ("drop database".toList ++ b) := by
    rw [← List.append_assoc]
    exact hab
  obtain ⟨a1, rest, hq, ha1, hrest⟩ := List.map_eq_append_iff.mp hab2
  obtain ⟨m, b1, hrest2, hm, hb1⟩ := List.map_eq_append_iff.mp hrest
  have hmne : m ≠ [] := by
    intro hnil
    rw [hnil] at hm
    exact absurd hm.symm (by decide)
  obtain ⟨c1, t1, hm1⟩ : ∃ c1 t1, m = c1 :: t1 := by
    cases m with
    | nil => exact absurd rfl hmne
    | cons x xs => exact ⟨x, xs, rfl⟩
  obtain ⟨t2, c2, hm2⟩ : ∃ t2 c2, m = t2 ++ [c2] := by
    rcases List.eq_nil_or_concat' m with hnil | ⟨t2, c2, hcc⟩
    · exact absurd hnil hmne
    · exact ⟨t2, c2, hcc⟩
  have hc1 : lowerChar c1 = 'd' := by
    rw [hm1] at hm
    exact (List.cons.injEq _ _ _ _ ▸ hm).1
  have hc2 : lowerChar c2 = 'e' := by
    have := congrArg List.getLast? hm
    rw [hm2, List.map_append] at this
    simp only [List.map_cons, List.map_nil, List.getLast?_concat] at this
    have hdd : ("drop database".toList).getLast? = some 'e' := by decide
    rw [hdd] at this
    exact Option.some.injEq _ _ ▸ this
  have hw1 : isWS c1 = false := by
    by_contra hws
    have hws2 : isWS c1 = true := by
      cases hws3 : isWS c1 with
      | false => exact absurd hws3 hws
      | true => rfl
    rw [lowerChar_WS_fixed hws2] at hc1
    rw [hc1] at hws2
    exact absurd hws2 (by decide)
  have hw2 : isWS c2 = false := by
    by_contra hws
    have hws2 : isWS c2 = true := by
      cases hws3 : isWS c2 with
      | false => exact absurd hws3 hws
      | true => rfl
    rw [lowerChar_WS_fixed hws2] at hc2
    rw [hc2] at hws2
    exact absurd hws2 (by decide)
  have hql : q.toList = a1 ++ m ++ b1 := by
    rw [hq, hrest2, List.append_assoc]
  obtain ⟨a2, b2, htrim⟩ := jsTrimChars_infix hql hm1 hm2 hw1 hw2
  have hlow : (jsToLower (jsTrim q)).toList =
      a2.map lowerChar ++ ("drop".toList ++ ' ' :: "database".toList) ++ b2.map lowerChar := by
    show (jsTrimChars q.toList).map lowerChar = _
    rw [htrim]
    simp only [List.map_append, hm]
    have : ("drop database".toList) = "drop".toList ++ ' ' :: "database".toList := by decide
    rw [this]
  have hmatch : matchTwo "drop".toList "database".toList
      ((jsToLower (jsTrim q)).toList) = true := by
    rw [hlow]
    exact matchTwo_of_split _ _ _ _ _ (by decide)
  simp only [isDangerous]
  rw [hmatch]
  simp

/-! ## Shape of a successful registration -/

theorem seqQueryResult_true (db : DB) (year : Nat) :
    seqQueryResult db year true = nextSeqJS db year := rfl

theorem seqQueryResult_false (db : DB) (year : Nat) :
    seqQueryResult db year false = .int 1 := rfl

theorem addPatient_ok_elim {db : DB} {today : DateT} {q : Bool} {p : PatientInput}
    {r : AddOk} (h : addPatient db today q p = .ok r) :
    ∃ dob, p.dateOfBirth = some dob ∧
      r.patientId = generatePatientId today.year (seqQueryResult db today.year q) ∧
      r.id = db.nextId ∧
      r.db = { rows := db.rows ++ [mkRow db today r.patientId dob p],
               nextId := db.nextId + 1, clock := db.clock + 1 } ∧
      db.rows.any (fun row => row.patient_id == r.patientId) = false := by
  rcases hd : p.dateOfBirth with _ | dob
  · exfalso
    simp only [addPatient, hd] at h
    exact absurd h (by simp)
  · simp only [addPatient, hd] at h
    split at h
    · exact absurd h (by simp)
    · next hcond =>
        injection h with hv
        subst hv
        exact ⟨dob, rfl, rfl, rfl, rfl, by simpa using hcond⟩

/-- **C1.** For two consecutive successful registrations in the same year
(serial, success-path sequence query), the numeric suffixes of the assigned
`patientId` values strictly increase — also across the 4-digit padding
boundary, since the suffix is compared as a number, not as a padded string. -/
theorem patientId_suffix_strict_mono
    (db : DB) (today : DateT) (p1 p2 : PatientInput) (r1 r2 : AddOk)
    (hwf : WFIds db today.year)
    (h1 : addPatient db today true p1 = .ok r1)
    (h2 : addPatient r1.db today true p2 = .ok r2) :
    ∃ k1 k2 : Nat,
      trailingNumericSegment r1.patientId = some k1 ∧
      trailingNumericSegment r2.patientId = some k2 ∧ k1 < k2 := by
  obtain ⟨dob1, hd1, hpid1, hid1, hdb1, hg1⟩ := addPatient_ok_elim h1
  obtain ⟨dob2, hd2, hpid2, hid2, hdb2, hg2⟩ := addPatient_ok_elim h2
  rw [seqQueryResult_true] at hpid1 hpid2
  have hmrow : (mkRow db today r1.patientId dob1 p1).patient_id = r1.patientId := rfl
  have hconc : matchingIds r1.db today.year =
      matchingIds db today.year ++ [r1.patientId] := by
    have := @matchingIds_rows_concat db r1.db
      (mkRow db today r1.patientId dob1 p1) today.year
      (by rw [hdb1]) (by rw [hmrow, hpid1]; exact strHasPrefix_gen _ _)
    rwa [hmrow] at this
  rcases nextSeqJS_cases db today.year hwf with ⟨hseq, hmax⟩ | ⟨m, k, hmax, hmform, hseq⟩
  · -- no patient of this year yet: sequence 1 then sequence 2
    rw [hseq] at hpid1
    have hempty : matchingIds db today.year = [] := maxStr_eq_none hmax
    have hmax2 : maxStr (matchingIds r1.db today.year) = some r1.patientId := by
      rw [hconc, hempty, List.nil_append]
      rfl
    have hseq2 : nextSeqJS r1.db today.year = .int ((2 : Nat) : Int) := by
      unfold nextSeqJS
      rw [hmax2, hpid1]
      simp only [seqPartOf_gen, addOne_int_nat]
    rw [hseq2] at hpid2
    exact ⟨1, 2, by rw [hpid1]; exact trailing_gen _ _,
      by rw [hpid2]; exact trailing_gen _ _, by omega⟩
  · -- a greatest id PAT-<year>-<k> exists: sequence k+1, then either the
    -- fresh id is the new maximum (sequence k+2) or the insert would clash
    rw [hseq] at hpid1
    have hmaxcat : maxStr (matchingIds r1.db today.year) =
        maxO (some m) r1.patientId := by
      rw [hconc, maxStr_append_singleton, hmax]
    rcases maxO_some_cases m r1.patientId with hc | hc
    · -- fresh id is the new maximum
      have hseq2 : nextSeqJS r1.db today.year = .int ((k + 2 : Nat) : Int) := by
        unfold nextSeqJS
        rw [hmaxcat, hc, hpid1]
        simp only [seqPartOf_gen, addOne_int_nat]
      rw [hseq2] at hpid2
      exact ⟨k + 1, k + 2, by rw [hpid1]; exact trailing_gen _ _,
        by rw [hpid2]; exact trailing_gen _ _, by omega⟩
    · -- old maximum survives: the second insert recomputes sequence k+1 and
      -- collides with the row just inserted, contradicting its success
      exfalso
      have hseq2 : nextSeqJS r1.db today.year = .int ((k + 1 : Nat) : Int) := by
        unfold nextSeqJS
        rw [hmaxcat, hc, hmform]
        simp only [seqPartOf_gen, addOne_int_nat]
      have hpideq : r2.patientId = r1.patientId := by
        rw [hpid2, hseq2, hpid1]
      have hmem : mkRow db today r1.patientId dob1 p1 ∈ r1.db.rows := by
        rw [hdb1]; simp
      have hbeq : ((mkRow db today r1.patientId dob1 p1).patient_id ==
          r2.patientId) = true := by
        rw [hmrow, hpideq]; simp
      have hany : (r1.db.rows.any fun row => row.patient_id == r2.patientId) = true :=
        List.any_eq_true.mpr ⟨_, hmem, hbeq⟩
      rw [hg2] at hany
      exact Bool.false_ne_true hany

/-! ## Concrete fixtures for witnesses -/

deriving instance DecidableEq for Except

def sampleToday : DateT := ⟨2025, 5, 10⟩

def sampleInput1 : PatientInput :=
  ⟨"Ann", "Lee", "a@x.com", none, some ⟨2000, 0, 1⟩, .undef, "female",
    none, none, none, none, none, none, none, none⟩

def sampleInput2 : PatientInput :=
  ⟨"Cat", "Doe", "c@x.com", none, some ⟨1995, 4, 20⟩, .undef, "male",
    none, none, none, none, none, none, none, none⟩

def sampleRow : Row :=
  ⟨1, "PAT-2025-9998", "Bob", "Kim", "b@x.com", none, ⟨1990, 3, 4⟩, some 35,
    "male", none, none, none, none, none, none, none, none, 3, 3⟩

def sampleDB : DB := ⟨[sampleRow], 2, 10⟩

def getAddOk (x : Except DbError AddOk) : AddOk :=
  match x with
  | .ok r => r
  | .error _ => ⟨"", 0, ⟨[], 0, 0⟩⟩

def sampleR1 : AddOk := getAddOk (addPatient sampleDB sampleToday true sampleInput1)

def sampleR2 : AddOk := getAddOk (addPatient sampleR1.db sampleToday true sampleInput2)

theorem sampleDB_wf : WFIds sampleDB 2025 := by
  intro r hr hpre
  have hr2 : r = sampleRow := by simpa [sampleDB] using hr
  subst hr2
  exact ⟨9998, by decide⟩

/-! ## Claim theorems -/

/-- **C1 witness.** A store already holding `PAT-2025-9998`: the next two
registrations are assigned suffixes 9999 and then 10000, strictly increasing
across the padding boundary. -/
theorem patientId_suffix_strict_mono_witness :
    WFIds sampleDB sampleToday.year ∧
    addPatient sampleDB sampleToday true sampleInput1 = .ok sampleR1 ∧
    addPatient sampleR1.db sampleToday true sampleInput2 = .ok sampleR2 ∧
    (∃ k1 k2 : Nat,
      trailingNumericSegment sampleR1.patientId = some k1 ∧
      trailingNumericSegment sampleR2.patientId = some k2 ∧ k1 < k2) :=
  ⟨sampleDB_wf, by decide, by decide,
    patientId_suffix_strict_mono sampleDB sampleToday sampleInput1 sampleInput2
      sampleR1 sampleR2 sampleDB_wf (by decide) (by decide)⟩

/-- **C2.** The identifier pipeline of the source (`getNextPatientSequence`
plus `generatePatientId`) agrees with the spec's description: take the
lexicographically greatest stored id matching `PAT-<year>-%`; sequence 1 if
none, else trailing numeric segment plus one; zero-pad to at least 4
digits. -/
theorem nextPatientId_matches_spec (db : DB) (year : Nat) (hwf : WFIds db year) :
    nextPatientId db year = specNextPatientId db year := by
  rcases nextSeqJS_cases db year hwf with ⟨hseq, hmax⟩ | ⟨m, k, hmax, hmform, hseq⟩
  · unfold nextPatientId
    rw [hseq]
    unfold specNextPatientId generatePatientId
    rw [hmax, render_int_nat]
  · unfold nextPatientId
    rw [hseq]
    unfold specNextPatientId generatePatientId
    rw [hmax, hmform, render_int_nat]
    simp only [trailing_gen]

/-- **C2 witness.** -/
theorem nextPatientId_matches_spec_witness :
    WFIds sampleDB 2025 ∧
    nextPatientId sampleDB 2025 = specNextPatientId sampleDB 2025 :=
  ⟨sampleDB_wf, nextPatientId_matches_spec sampleDB 2025 sampleDB_wf⟩

/-- **C3 counterexample.** In the plain variant (`src/lib/database.js`),
updating a nonexistent `internalId` reports success instead of failing with
`NotFoundError` (no row matches, so the UPDATE mutates nothing and the
function returns `true`). -/
theorem updatePatientV2_missing_id_reports_success :
    updatePatientV2 ⟨[], 1, 0⟩ sampleToday 42 sampleInput1 = .ok (true, ⟨[], 1, 0⟩) := by
  decide

/-- **C3 (amended).** When no stored row matches `internalId`: the enhanced
variant's `updatePatient` fails with `NotFoundError` and performs no
mutation; the plain variant's `updatePatient` also performs no mutation but
reports success rather than `NotFoundError`. -/
theorem update_missing_id_behavior
    (db : DB) (today : DateT) (id : Nat) (p : PatientInput)
    (h : ∀ r ∈ db.rows, r.id ≠ id) :
    updatePatient db today id p = .error .notFound ∧
    updatePatientV2 db today id p = .ok (true, db) := by
  have hany : (db.rows.any fun r => r.id == id) = false := by
    rw [List.any_eq_false]
    intro r hr
    simp [h r hr]
  constructor
  · unfold updatePatient
    rw [if_neg (by simp [hany])]
  · unfold updatePatientV2
    rw [if_neg (by simp [hany])]

/-- **C3 witness.** -/
theorem update_missing_id_behavior_witness :
    (∀ r ∈ sampleDB.rows, r.id ≠ 42) ∧
    (updatePatient sampleDB sampleToday 42 sampleInput1 = .error .notFound ∧
     updatePatientV2 sampleDB sampleToday 42 sampleInput1 = .ok (true, sampleDB)) :=
  ⟨by decide, update_missing_id_behavior sampleDB sampleToday 42 sampleInput1 (by decide)⟩

theorem deletePatient_fst (db : DB) (id : Nat) : (deletePatient db id).1 = true := by
  unfold deletePatient
  split <;> rfl

theorem deletePatient_no_row (db : DB) (id : Nat) :
    ∀ r ∈ (deletePatient db id).2.rows, r.id ≠ id := by
  unfold deletePatient
  split
  · next h =>
      intro r hr heq
      have hr2 := List.mem_filter.mp hr
      have : (r.id == id) = true := by simp [heq]
      rw [this] at hr2
      exact absurd hr2.2 (by simp)
  · next h =>
      intro r hr heq
      exact h (List.any_eq_true.mpr ⟨r, hr, by simp [heq]⟩)

/-- **C7.** `deletePatient` is idempotent: deleting any `internalId` returns
success whether or not a matching row exists, doing it twice returns success
both times, and afterwards no row with that `internalId` remains. -/
theorem deletePatient_idempotent (db : DB) (id : Nat) :
    (deletePatient db id).1 = true ∧
    (deletePatient (deletePatient db id).2 id).1 = true ∧
    ∀ r ∈ (deletePatient (deletePatient db id).2 id).2.rows, r.id ≠ id :=
  ⟨deletePatient_fst db id, deletePatient_fst _ id, deletePatient_no_row _ id⟩

/-- **C7 witness.** -/
theorem deletePatient_idempotent_witness :
    (deletePatient sampleDB 1).1 = true ∧
    (deletePatient (deletePatient sampleDB 1).2 1).1 = true ∧
    ∀ r ∈ (deletePatient (deletePatient sampleDB 1).2 1).2.rows, r.id ≠ 1 :=
  deletePatient_idempotent sampleDB 1

theorem deriveAge_eq (today birth : DateT) :
    deriveAge today birth =
      (today.year : Int) - birth.year -
        (if today.month < birth.month ∨ (today.month = birth.month ∧ today.day < birth.day)
          then 1 else 0) := by
  have hiff : (((today.month : Int) - (birth.month : Int) < 0) ∨
      (((today.month : Int) - (birth.month : Int)) = 0 ∧ today.day < birth.day)) ↔
      (today.month < birth.month ∨ (today.month = birth.month ∧ today.day < birth.day)) := by
    omega
  simp only [deriveAge]
  by_cases hc : today.month < birth.month ∨ (today.month = birth.month ∧ today.day < birth.day)
  · rw [if_pos (hiff.mpr hc), if_pos hc]
  · rw [if_neg (fun hh => hc (hiff.mp hh)), if_neg hc]
    ring

/-- **C8.** A registration that supplies a `dateOfBirth` but no `age` stores
current year minus birth year, decremented by one exactly when the current
month/day precedes the birth month/day; the inserted row carries that
value. -/
theorem derived_age_calendar_aware
    (p : PatientInput) (db : DB) (today dob : DateT) (r : AddOk)
    (hage : p.age = .undef) (hdob : p.dateOfBirth = some dob)
    (hok : addPatient db today true p = .ok r) :
    storedAgeVal p.age p.dateOfBirth today =
      (today.year : Int) - dob.year -
        (if today.month < dob.month ∨ (today.month = dob.month ∧ today.day < dob.day)
          then 1 else 0) ∧
    ∃ row, r.db.rows.getLast? = some row ∧
      row.age = some (storedAgeVal p.age p.dateOfBirth today) := by
  have hstored : storedAgeVal p.age p.dateOfBirth today = deriveAge today dob := by
    rw [hage, hdob]
    show jsParseIntOr0 (resolveAge .undef (some dob) today) = _
    have hres : resolveAge .undef (some dob) today = .num (deriveAge today dob) := rfl
    rw [hres]
    rfl
  constructor
  · rw [hstored, deriveAge_eq]
  · obtain ⟨dob2, hd2, hpid, hid, hdbr, hg⟩ := addPatient_ok_elim hok
    refine ⟨mkRow db today r.patientId dob2 p, ?_, rfl⟩
    rw [hdbr]
    exact List.getLast?_concat _

/-- **C8 witness.** Current date one day before this year's birthday
anniversary: derived age is 24, one less than 2025 − 2000. -/
theorem derived_age_calendar_aware_witness :
    sampleInput1.age = .undef ∧
    sampleInput1.dateOfBirth = some ⟨2000, 0, 1⟩ ∧
    addPatient ⟨[], 1, 0⟩ ⟨2000, 0, 0⟩ true sampleInput1 =
      .ok (getAddOk (addPatient ⟨[], 1, 0⟩ ⟨2000, 0, 0⟩ true sampleInput1)) ∧
    (storedAgeVal sampleInput1.age sampleInput1.dateOfBirth ⟨2000, 0, 0⟩ =
        ((2000 : Nat) : Int) - (2000 : Nat) -
          (if (0 : Nat) < 0 ∨ ((0 : Nat) = 0 ∧ (0 : Nat) < 1) then 1 else 0) ∧
      ∃ row,
        (getAddOk (addPatient ⟨[], 1, 0⟩ ⟨2000, 0, 0⟩ true sampleInput1)).db.rows.getLast? =
          some row ∧
        row.age = some (storedAgeVal sampleInput1.age sampleInput1.dateOfBirth ⟨2000, 0, 0⟩)) :=
  ⟨rfl, rfl, by decide,
    derived_age_calendar_aware sampleInput1 ⟨[], 1, 0⟩ ⟨2000, 0, 0⟩ ⟨2000, 0, 1⟩
      (getAddOk (addPatient ⟨[], 1, 0⟩ ⟨2000, 0, 0⟩ true sampleInput1))
      rfl rfl (by decide)⟩

/-- **C10.** Any falsy supplied age (absent, `0`, `""`) with a date of birth
present is recomputed from the date of birth, and a non-numeric supplied age
string is stored as `0` (`Number.parseInt(...) || 0`), not rejected. -/
theorem falsy_age_recomputed_and_nonnumeric_zero
    (a : JSAge) (dob today : DateT) (s : String) :
    (a.falsy = true → storedAgeVal a (some dob) today = deriveAge today dob) ∧
    (s ≠ "" → jsParseInt s = none →
      storedAgeVal (.str s) (some dob) today = 0) := by
  constructor
  · intro hf
    show jsParseIntOr0 (resolveAge a (some dob) today) = _
    have hres : resolveAge a (some dob) today = .num (deriveAge today dob) := by
      show (if a.falsy = true then JSAge.num (deriveAge today dob) else a) = _
      rw [if_pos hf]
    rw [hres]
    rfl
  · intro hne hparse
    show jsParseIntOr0 (resolveAge (.str s) (some dob) today) = 0
    have hf : (JSAge.str s).falsy = false := by
      simp [JSAge.falsy, hne]
    have hres : resolveAge (.str s) (some dob) today = .str s := by
      show (if (JSAge.str s).falsy = true then JSAge.num (deriveAge today dob)
        else JSAge.str s) = _
      rw [hf]
      simp
    rw [hres]
    simp [jsParseIntOr0, hparse]

/-- **C10 witness.** An explicit age of `0` is recomputed; `"abc"` is stored
as 0. -/
theorem falsy_age_recomputed_and_nonnumeric_zero_witness :
    ((JSAge.num 0).falsy = true ∧
      storedAgeVal (.num 0) (some ⟨2000, 0, 1⟩) sampleToday =
        deriveAge sampleToday ⟨2000, 0, 1⟩) ∧
    ("abc" ≠ "" ∧ jsParseInt "abc" = none ∧
      storedAgeVal (.str "abc") (some ⟨2000, 0, 1⟩) sampleToday = 0) :=
  ⟨⟨by decide,
      (falsy_age_recomputed_and_nonnumeric_zero (.num 0) ⟨2000, 0, 1⟩ sampleToday "abc").1
        (by decide)⟩,
    ⟨by decide, by decide,
      (falsy_age_recomputed_and_nonnumeric_zero (.str "abc") ⟨2000, 0, 1⟩ sampleToday
        "abc").2 (by decide) (by decide)⟩⟩

/-- **C9.** When the greatest-id lookup query throws, `getNextPatientSequence`
swallows the error and returns sequence 1, so the registration attempts
`PAT-<current-year>-0001` regardless of what is stored: a duplicate
identifier whenever a patient of the year already holds `-0001`, and a fresh
`-0001` row otherwise. -/
theorem seq_query_failure_yields_first_id
    (db : DB) (today : DateT) (p : PatientInput) (dob : DateT)
    (hdob : p.dateOfBirth = some dob) :
    seqQueryResult db today.year false = .int 1 ∧
    generatePatientId today.year (seqQueryResult db today.year false) =
      "PAT-" ++ natStr today.year ++ "-0001" ∧
    ((db.rows.any fun row =>
        row.patient_id == generatePatientId today.year (.int 1)) = true →
      addPatient db today false p = .error .duplicateId) ∧
    ((db.rows.any fun row =>
        row.patient_id == generatePatientId today.year (.int 1)) = false →
      ∃ r : AddOk, addPatient db today false p = .ok r ∧
        r.patientId = generatePatientId today.year (.int 1)) := by
  refine ⟨rfl, ?_, ?_, ?_⟩
  · show generatePatientId today.year (.int 1) = _
    unfold generatePatientId
    have hpad : padTo4 (JSNum.int 1).render = ['0', '0', '0', '1'] := by decide
    rw [hpad]
    apply String.ext
    simp [String.data_append, natStr]
  · intro hany
    simp only [addPatient, hdob, seqQueryResult_false]
    rw [if_pos hany]
  · intro hany
    simp only [addPatient, hdob, seqQueryResult_false]
    rw [if_neg (by simp [hany])]
    exact ⟨_, rfl, rfl⟩

def sampleRow0001 : Row :=
  ⟨1, "PAT-2025-0001", "Bob", "Kim", "b@x.com", none, ⟨1990, 3, 4⟩, some 35,
    "male", none, none, none, none, none, none, none, none, 3, 3⟩

def sampleDB0001 : DB := ⟨[sampleRow0001], 2, 10⟩

/-- **C9 witness.** A store already holding `PAT-2025-0001`: a registration
whose sequence query fails is assigned `PAT-2025-0001` again and errors with
the duplicate-identifier conflict. -/
theorem seq_query_failure_yields_first_id_witness :
    sampleInput1.dateOfBirth = some ⟨2000, 0, 1⟩ ∧
    (seqQueryResult sampleDB0001 sampleToday.year false = .int 1 ∧
     generatePatientId sampleToday.year (seqQueryResult sampleDB0001 sampleToday.year false) =
       "PAT-" ++ natStr sampleToday.year ++ "-0001" ∧
     ((sampleDB0001.rows.any fun row =>
         row.patient_id == generatePatientId sampleToday.year (.int 1)) = true →
       addPatient sampleDB0001 sampleToday false sampleInput1 = .error .duplicateId) ∧
     ((sampleDB0001.rows.any fun row =>
         row.patient_id == generatePatientId sampleToday.year (.int 1)) = false →
       ∃ r : AddOk, addPatient sampleDB0001 sampleToday false sampleInput1 = .ok r ∧
         r.patientId = generatePatientId sampleToday.year (.int 1))) ∧
    addPatient sampleDB0001 sampleToday false sampleInput1 = .error .duplicateId :=
  ⟨rfl,
    seq_query_failure_yields_first_id sampleDB0001 sampleToday sampleInput1 ⟨2000, 0, 1⟩ rfl,
    by decide⟩

/-! ## Lemmas for output shaping (claim C5) -/

theorem shapedColumns_no_id (fields : List String) : "id" ∉ shapedColumns fields := by
  simp only [shapedColumns]
  split
  · intro hmem
    rcases List.mem_cons.mp hmem with heq | hmem2
    · exact absurd heq (by decide)
    · have := (List.mem_filter.mp (List.mem_filter.mp hmem2).1).2
      simp at this
  · intro hmem
    have := (List.mem_filter.mp hmem).2
    simp at this

theorem shapedColumns_head (fields : List String)
    (h : "patient_id" ∈ shapedColumns fields) :
    (shapedColumns fields).head? = some "patient_id" := by
  simp only [shapedColumns] at h ⊢
  split
  · rfl
  · next hpat =>
      exfalso
      rw [if_neg hpat] at h
      have hmem : "patient_id" ∈ fields := (List.mem_filter.mp h).1
      exact hpat (List.elem_iff.mpr hmem)

theorem rebuilt_keys {cols : List String} {row : List (String × JSVal)}
    {kv : String × JSVal}
    (h : kv ∈ cols.map (fun col => (col, getProp row col))) : kv.1 ∈ cols := by
  obtain ⟨col, hcol, rfl⟩ := List.mem_map.mp h
  exact hcol

/-- **C5.** On the code's patient-SELECT predicate, the shaped result never
contains the internal `id` column — neither in the column list nor in any
row object — and whenever `patient_id` is among the shaped columns it is
first; for any other statement the result passes through unshaped. -/
theorem shapeResult_hides_internal_id (clean : String) (res : EngineResult)
    (hwf : ∀ row ∈ res.rows, ∀ kv ∈ row, kv.1 ∈ res.fields) :
    ((jsIncludes (jsToLower clean) "from patients" &&
        jsStartsWith (jsToLower clean) "select") = true →
      ("id" ∉ (shapeResult clean res).columns ∧
       (∀ row ∈ (shapeResult clean res).rows, ∀ kv ∈ row, kv.1 ≠ "id") ∧
       ("patient_id" ∈ (shapeResult clean res).columns →
         (shapeResult clean res).columns.head? = some "patient_id"))) ∧
    ((jsIncludes (jsToLower clean) "from patients" &&
        jsStartsWith (jsToLower clean) "select") = false →
      (shapeResult clean res).rows = res.rows ∧
      (shapeResult clean res).columns = res.fields) := by
  constructor
  · intro hc
    by_cases hor : (res.fields.contains "patient_id" || res.fields.contains "id") = true
    · have hshape : shapeResult clean res =
          ⟨res.rows.map (fun row =>
              (shapedColumns res.fields).map (fun col => (col, getProp row col))),
            shapedColumns res.fields,
            (res.rows.map (fun row =>
              (shapedColumns res.fields).map (fun col => (col, getProp row col)))).length⟩ := by
        unfold shapeResult
        rw [hc, hor]
        rfl
      rw [hshape]
      refine ⟨shapedColumns_no_id res.fields, ?_, fun h => shapedColumns_head res.fields h⟩
      intro row hrow kv hkv
      obtain ⟨row0, _, rfl⟩ := List.mem_map.mp hrow
      intro heq
      have hmem := rebuilt_keys hkv
      rw [heq] at hmem
      exact shapedColumns_no_id res.fields hmem
    · have hor2 : (res.fields.contains "patient_id" || res.fields.contains "id") = false :=
        Bool.eq_false_iff.mpr hor
      have hpat : res.fields.contains "patient_id" = false := by
        cases h1 : res.fields.contains "patient_id" with
        | false => rfl
        | true => rw [h1] at hor2; simp at hor2
      have hid : res.fields.contains "id" = false := by
        cases h1 : res.fields.contains "id" with
        | false => rfl
        | true => rw [h1] at hor2; simp at hor2
      have hshape : shapeResult clean res = ⟨res.rows, res.fields, res.rows.length⟩ := by
        unfold shapeResult
        rw [hc, hor2]
        rfl
      rw [hshape]
      have hidmem : "id" ∉ res.fields := by
        intro hmem
        have h2 : res.fields.elem "id" = true := List.elem_iff.mpr hmem
        have h3 : res.fields.elem "id" = false := hid
        rw [h2] at h3
        exact absurd h3 (by simp)
      refine ⟨hidmem, ?_, ?_⟩
      · intro row hrow kv hkv heq
        have := hwf row hrow kv hkv
        rw [heq] at this
        exact hidmem this
      · intro hmem
        exfalso
        have h2 : res.fields.elem "patient_id" = true := List.elem_iff.mpr hmem
        have h3 : res.fields.elem "patient_id" = false := hpat
        rw [h2] at h3
        exact absurd h3 (by simp)
  · intro hc
    have hshape : shapeResult clean res = ⟨res.rows, res.fields, res.rows.length⟩ := by
      unfold shapeResult
      rw [hc]
      rfl
    rw [hshape]
    exact ⟨rfl, rfl⟩

/-- **C5 witness.** A `SELECT * FROM patients` result carrying `id` and
`patient_id` columns. -/
theorem shapeResult_hides_internal_id_witness :
    (∀ row ∈ (EngineResult.mk ["id", "patient_id", "first_name"]
        [[("id", some "1"), ("patient_id", some "PAT-2025-0001"),
          ("first_name", some "Ann")]]).rows,
      ∀ kv ∈ row, kv.1 ∈ (EngineResult.mk ["id", "patient_id", "first_name"]
        [[("id", some "1"), ("patient_id", some "PAT-2025-0001"),
          ("first_name", some "Ann")]]).fields) ∧
    ((jsIncludes (jsToLower "select * from patients") "from patients" &&
        jsStartsWith (jsToLower "select * from patients") "select") = true ∧
      ("id" ∉ (shapeResult "select * from patients"
          (EngineResult.mk ["id", "patient_id", "first_name"]
            [[("id", some "1"), ("patient_id", some "PAT-2025-0001"),
              ("first_name", some "Ann")]])).columns ∧
        (shapeResult "select * from patients"
          (EngineResult.mk ["id", "patient_id", "first_name"]
            [[("id", some "1"), ("patient_id", some "PAT-2025-0001"),
              ("first_name", some "Ann")]])).columns.head? = some "patient_id")) := by
  refine ⟨by decide, by decide, ?_, ?_⟩
  · exact ((shapeResult_hides_internal_id "select * from patients" _ (by decide)).1
      (by decide)).1
  · exact ((shapeResult_hides_internal_id "select * from patients" _ (by decide)).1
      (by decide)).2.2 (by decide)

/-- **C6.** A statement matching the destructive-keyword denylist fails with
`ForbiddenOperationError` before the engine is ever invoked; in particular
any statement containing `drop database` case-insensitively is so
rejected, for every engine. -/
theorem dangerous_query_rejected_before_engine
    (q : String) (engine : String → Except Unit EngineResult) :
    (isDangerous (jsTrim q) = true →
      executeQuery q engine = (.error .forbidden, false)) ∧
    (listContains ("drop database".toList) ((jsToLower q).toList) = true →
      executeQuery q engine = (.error .forbidden, false)) := by
  constructor
  · intro h
    simp only [executeQuery]
    rw [h]
    rfl
  · intro h
    simp only [executeQuery]
    rw [dropDatabase_implies_dangerous q h]
    rfl

/-- **C6 witness.** -/
theorem dangerous_query_rejected_before_engine_witness :
    isDangerous (jsTrim "SELECT 1; DROP DATABASE x") = true ∧
    listContains ("drop database".toList)
      ((jsToLower "SELECT 1; DROP DATABASE x").toList) = true ∧
    executeQuery "SELECT 1; DROP DATABASE x" (fun _ => .error ()) =
      (.error .forbidden, false) :=
  ⟨by decide, by decide,
    (dangerous_query_rejected_before_engine "SELECT 1; DROP DATABASE x"
      (fun _ => .error ())).2 (by decide)⟩

/-! ## Round trip: register then list (claim C4) -/

/-- The caller-supplied optional fields are already in normalized form
(`x || null` is the identity): `none`, or `some s` with `s` nonempty. -/
def NormalizedInput (p : PatientInput) : Prop :=
  normOpt p.phone = p.phone ∧ normOpt p.address = p.address ∧
  normOpt p.emergencyContactName = p.emergencyContactName ∧
  normOpt p.emergencyContactPhone = p.emergencyContactPhone ∧
  normOpt p.medicalHistory = p.medicalHistory ∧
  normOpt p.allergies = p.allergies ∧
  normOpt p.currentMedications = p.currentMedications ∧
  normOpt p.insuranceProvider = p.insuranceProvider ∧
  normOpt p.insurancePolicyNumber = p.insurancePolicyNumber

/-- A listed entry whose fields equal the input, modulo the derived `age`,
the assigned identifiers and the server timestamps. -/
def inputMatches (p : PatientInput) (e : ListedPatient) : Prop :=
  e.firstName = p.firstName ∧ e.lastName = p.lastName ∧ e.email = p.email ∧
  e.phone = p.phone ∧ some e.dateOfBirth = p.dateOfBirth ∧ e.gender = p.gender ∧
  e.address = p.address ∧ e.emergencyContactName = p.emergencyContactName ∧
  e.emergencyContactPhone = p.emergencyContactPhone ∧
  e.medicalHistory = p.medicalHistory ∧ e.allergies = p.allergies ∧
  e.currentMedications = p.currentMedications ∧
  e.insuranceProvider = p.insuranceProvider ∧
  e.insurancePolicyNumber = p.insurancePolicyNumber

instance (p : PatientInput) : Decidable (NormalizedInput p) := by
  unfold NormalizedInput
  infer_instance

instance (p : PatientInput) (e : ListedPatient) : Decidable (inputMatches p e) := by
  unfold inputMatches
  infer_instance

theorem listedOf_age (today : DateT) (row : Row) :
    (listedOf today row).age = row.age.getD (deriveAge today row.date_of_birth) := by
  cases h : row.age <;> simp [listedOf, h]

/-- **C4.** Registering a valid input (optional fields normalized, no stored
row already carrying the same fields) and then listing yields exactly one
entry whose fields equal the input; the listing is ordered by `createdAt`
descending, is a permutation of the stored rows, and reads `age` as stored
or derived from `dateOfBirth` when the stored age is null. -/
theorem register_then_list_round_trip
    (db : DB) (today : DateT) (p : PatientInput) (r : AddOk)
    (hnorm : NormalizedInput p)
    (hnew : ∀ row ∈ db.rows, ¬ inputMatches p (listedOf today row))
    (hok : addPatient db today true p = .ok r) :
    (getAllPatients r.db today).countP (fun e => decide (inputMatches p e)) = 1 ∧
    List.Pairwise (fun a b : ListedPatient => b.createdAt ≤ a.createdAt)
      (getAllPatients r.db today) ∧
    (getAllPatients r.db today).Perm (r.db.rows.map (listedOf today)) ∧
    (∀ e ∈ getAllPatients r.db today, ∃ row ∈ r.db.rows,
      e = listedOf today row ∧
      e.age = row.age.getD (deriveAge today row.date_of_birth)) := by
  obtain ⟨dob, hdob, hpid, hid, hdbr, hg⟩ := addPatient_ok_elim hok
  obtain ⟨hn1, hn2, hn3, hn4, hn5, hn6, hn7, hn8, hn9⟩ := hnorm
  have hperm : (List.insertionSort createdDesc r.db.rows).Perm r.db.rows :=
    List.perm_insertionSort createdDesc r.db.rows
  have hpermmap : (getAllPatients r.db today).Perm (r.db.rows.map (listedOf today)) :=
    hperm.map (listedOf today)
  have hmatch : inputMatches p (listedOf today (mkRow db today r.patientId dob p)) :=
    ⟨rfl, rfl, rfl, hn1, hdob.symm, rfl, hn2, hn3, hn4, hn5, hn6, hn7, hn8, hn9⟩
  refine ⟨?_, ?_, hpermmap, ?_⟩
  · rw [hpermmap.countP_eq, List.countP_map, hdbr]
    rw [List.countP_append]
    have hz : db.rows.countP ((fun e => decide (inputMatches p e)) ∘ listedOf today) = 0 := by
      rw [List.countP_eq_zero]
      intro row hrow
      simp only [Function.comp_apply, decide_eq_true_eq]
      exact hnew row hrow
    rw [hz, List.countP_cons, List.countP_nil]
    simp [hmatch]
  · have hsorted : List.Sorted createdDesc (List.insertionSort createdDesc r.db.rows) :=
      List.sorted_insertionSort createdDesc r.db.rows
    exact List.Pairwise.map (listedOf today) (fun a b h => h) hsorted
  · intro e he
    have hmem : e ∈ r.db.rows.map (listedOf today) := hpermmap.mem_iff.mp he
    obtain ⟨row, hrow, rfl⟩ := List.mem_map.mp hmem
    exact ⟨row, hrow, rfl, listedOf_age today row⟩

/-- **C4 witness.** -/
theorem register_then_list_round_trip_witness :
    NormalizedInput sampleInput1 ∧
    (∀ row ∈ sampleDB.rows, ¬ inputMatches sampleInput1 (listedOf sampleToday row)) ∧
    addPatient sampleDB sampleToday true sampleInput1 = .ok sampleR1 ∧
    ((getAllPatients sampleR1.db sampleToday).countP
        (fun e => decide (inputMatches sampleInput1 e)) = 1 ∧
      List.Pairwise (fun a b : ListedPatient => b.createdAt ≤ a.createdAt)
        (getAllPatients sampleR1.db sampleToday) ∧
      (getAllPatients sampleR1.db sampleToday).Perm
        (sampleR1.db.rows.map (listedOf sampleToday)) ∧
      (∀ e ∈ getAllPatients sampleR1.db sampleToday, ∃ row ∈ sampleR1.db.rows,
        e = listedOf sampleToday row ∧
        e.age = row.age.getD (deriveAge sampleToday row.date_of_birth))) :=
  ⟨by decide, by decide, by decide,
    register_then_list_round_trip sampleDB sampleToday sampleInput1 sampleR1
      (by decide) (by decide) (by decide)⟩

end PatientStore
